import Mathlib

/-
Verification of the match timeline and state-reconstruction engine
(src/game_engine.py, src/match_state.py) against its specification.

Shallow embedding conventions:
- Python floats are modelled as rationals (ℚ); all arithmetic in the
  verified routines is field arithmetic, comparisons and min/max, so the
  rational model is exact.
- Python dicts (which preserve insertion order) are modelled as
  association lists, keys in insertion order.
- NumPy arrays are modelled as Lists; in-place element assignment is
  List.set, row append is list append.
- The transcendental jitter inside GameEngine._get_tactical_position
  (np.sin / np.cos) is not representable in ℚ; the tactical position is
  therefore passed to the interpolator as an oracle function argument
  (the interpolator only ever consumes its output value, exactly as the
  Python code consumes the returned pair).
-/

namespace Offside

/-- Quintic ease-in/ease-out interpolation, from smooth_interpolation in
src/game_engine.py: clamp progress to [0,1], then ease-in 16·t⁵ below the
midpoint and ease-out 1 − (−2t+2)⁵/2 above it. -/
def smooth_interpolation (start endv progress : ℚ) : ℚ :=
  let p := max 0 (min 1 progress)
  let t := if p < 1/2 then 16 * p ^ 5 else 1 - (-2 * p + 2) ^ 5 / 2
  start + (endv - start) * t

/-- One (timestamp, x, y) observation of GameEngine.player_positions. -/
structure Sample where
  t : ℚ
  x : ℚ
  y : ℚ
deriving DecidableEq

/-- The bracket-search loop of GameEngine._interpolate_position:
walk the sample list in order keeping the last sample with t ≤ timestamp
as before; stop at the first sample with t ≥ timestamp, which becomes
after.  The accumulator is the running before value. -/
def findBracketAux (timestamp : ℚ) (before : Option Sample) :
    List Sample → Option Sample × Option Sample
  | [] => (before, none)
  | s :: rest =>
    let b := if s.t ≤ timestamp then some s else before
    if s.t ≥ timestamp then (b, some s)
    else findBracketAux timestamp b rest

def findBracket (timestamp : ℚ) (positions : List Sample) :
    Option Sample × Option Sample :=
  findBracketAux timestamp none positions

/-- GameEngine._interpolate_position.  tactical is the oracle for
self._get_tactical_position(player_id, ·); defaultPos is the value of
self._get_default_position for this player (used only when the sample
list is empty). -/
def interpolatePosition (tactical : ℚ → ℚ × ℚ) (defaultPos : ℚ × ℚ)
    (positions : List Sample) (timestamp : ℚ) : ℚ × ℚ :=
  if positions = [] then defaultPos
  else
    match findBracket timestamp positions with
    | (none, none) => tactical timestamp
    | (none, some _) =>
      -- only future data: return the first raw sample
      match positions with
      | [] => defaultPos
      | s :: _ => (s.x, s.y)
    | (some b, none) =>
      -- only past data: blend toward tactical after 5 seconds
      let time_diff := timestamp - b.t
      if time_diff > 5 then
        let tac := tactical timestamp
        let blend := min 1 ((time_diff - 5) / 5)
        (b.x + (tac.1 - b.x) * blend, b.y + (tac.2 - b.y) * blend)
      else (b.x, b.y)
    | (some b, some a) =>
      let gap := a.t - b.t
      if gap > 10 then
        -- sparse-data regime: bridge through the tactical position
        let progress := (timestamp - b.t) / gap
        let tac := tactical timestamp
        if progress < 0.2 then
          let blend := progress / 0.2
          (b.x + (tac.1 - b.x) * blend, b.y + (tac.2 - b.y) * blend)
        else if progress > 0.8 then
          let blend := (1 - progress) / 0.2
          (a.x + (tac.1 - a.x) * blend, a.y + (tac.2 - a.y) * blend)
        else (tac.1, tac.2)
      else if a.t = b.t then (b.x, b.y)
      else
        let factor := smooth_interpolation 0 1 ((timestamp - b.t) / (a.t - b.t))
        (b.x + (a.x - b.x) * factor, b.y + (a.y - b.y) * factor)

/-- Fixed tactical-position oracle used for concrete test inputs. -/
def tacticalTest : ℚ → ℚ × ℚ := fun _ => (4, 6)

inductive EventType where
  | SHOT
  | OTHER
deriving DecidableEq

structure Event where
  timestamp : ℚ
  period : Option ℕ
  eventType : EventType
  result : Option String
  team : Option String
  player : Option String

structure PlayerState where
  player_id : String
  x : ℚ
  y : ℚ
  has_ball : Bool
  is_active : Bool

structure BallState where
  x : ℚ
  y : ℚ
  z : ℚ
  in_play : Bool

structure GameState where
  timestamp : ℚ
  period : ℕ
  score_home : ℕ
  score_away : ℕ
  possession_team : Option String
  players : List (String × PlayerState)
  ball : BallState
  last_event : Option Event

/-- The period_offsets table built in GameEngine.__init__
(1 → 0, 2 → 45·60, 3 → 90·60, 4 → 105·60, 5 → 120·60; .get default 0). -/
def periodOffset : ℕ → ℚ
  | 1 => 0
  | 2 => 45 * 60
  | 3 => 90 * 60
  | 4 => 105 * 60
  | 5 => 120 * 60
  | _ => 0

/-- GameEngine._get_global_time: local timestamp plus the period offset
(period defaults to 1 when the event carries none). -/
def globalTime (event : Event) : ℚ :=
  periodOffset (event.period.getD 1) + event.timestamp

/-- Dict-membership test player_id in state.players. -/
def hasKey (players : List (String × PlayerState)) (pid : String) : Bool :=
  players.any fun p => decide (p.1 = pid)

/-- The flag-clearing loop of _process_event: player_state.has_ball =
False for every tracked player. -/
def clearBall (p : String × PlayerState) : String × PlayerState :=
  (p.1, { p.2 with has_ball := false })

/-- The tracked-player branch of _process_event: set has_ball on the
entry whose key is the acting player. -/
def giveBall (pid : String) (p : String × PlayerState) : String × PlayerState :=
  if p.1 = pid then (p.1, { p.2 with has_ball := true }) else p

/-- The untracked-player branch of _process_event: a fresh PlayerState
at the default position, holding the ball, active. -/
def newHolder (pid : String) (dxy : ℚ × ℚ) : PlayerState :=
  { player_id := pid, x := dxy.1, y := dxy.2, has_ball := true, is_active := true }

/-- GameEngine._process_event, as a function of the engine's immutable
home team id and metadata cache (via defaultPos, the value of
_get_default_position) and the mutable current_state.  Mirrors the
source order: store last_event, set timestamp to the event's global
time, update period, increment the scoring team on a goal shot (an event
whose team is not the home team — including a missing team — credits the
away side), update possession, clear every player's possession flag,
then set it for the acting player, inserting a fresh PlayerState at the
default position when the acting player is untracked. -/
def processEvent (home_team_id : String) (defaultPos : String → ℚ × ℚ)
    (state : GameState) (event : Event) : GameState :=
  let s := { state with last_event := some event }
  let event_time := globalTime event
  let s := { s with timestamp := event_time }
  let s := match event.period with
    | some p => { s with period := p }
    | none => s
  let s :=
    if event.eventType = EventType.SHOT ∧ event.result = some "GOAL" then
      if event.team = some home_team_id then
        { s with score_home := s.score_home + 1 }
      else
        { s with score_away := s.score_away + 1 }
    else s
  let s := match event.team with
    | some tid => { s with possession_team := some tid }
    | none => s
  let s := { s with players := s.players.map clearBall }
  match event.player with
  | none => s
  | some pid =>
    if hasKey s.players pid then
      { s with players := s.players.map (giveBall pid) }
    else
      { s with players := s.players ++ [(pid, newHolder pid (defaultPos pid))] }

/-- Number of players currently holding the possession flag. -/
def countWithBall (players : List (String × PlayerState)) : ℕ :=
  players.countP fun p => p.2.has_ball

/-- Keys of a player map. -/
def playerKeys (players : List (String × PlayerState)) : List String :=
  players.map Prod.fst

/-- The possession pipeline of _process_event, isolated: clear every
flag, then hand the ball to the acting player (inserting it if
untracked). -/
def possessionUpdate (defaultPos : String → ℚ × ℚ) (event : Event)
    (players : List (String × PlayerState)) : List (String × PlayerState) :=
  let cleared := players.map clearBall
  match event.player with
  | none => cleared
  | some pid =>
    if hasKey cleared pid then cleared.map (giveBall pid)
    else cleared ++ [(pid, newHolder pid (defaultPos pid))]

structure MState where
  time : ℚ
  period : ℕ
  score : ℕ × ℕ
  positions : List (ℚ × ℚ)
  velocities : List (ℚ × ℚ)
  stamina : List ℚ
  team_ids : List ℕ
  ball_owner_idx : Option ℕ
  possession_team : ℕ
  player_id_to_idx : List (String × ℕ)
  idx_to_player_id : List (ℕ × String)
  last_event : Option Event
  events : List Event

/-- Dict lookup player_id_to_idx.get(pid). -/
def lookupIdx (l : List (String × ℕ)) (k : String) : Option ℕ :=
  (l.find? fun p => decide (p.1 = k)).map Prod.snd

/-- Dict lookup player_team_map.get(pid). -/
def lookupTeam (l : List (String × String)) (k : String) : Option String :=
  (l.find? fun p => decide (p.1 = k)).map Prod.snd

/-- The body of the player loop in MatchState.from_game_state: write
the player's position into its row, remember the index of the last
player holding the ball, and mark away-team rows in team_ids.  The
accumulator is (positions, ball_owner_idx, team_ids). -/
def fillAcc (player_id_to_idx : List (String × ℕ))
    (player_team_map : List (String × String)) (away_team_id : String)
    (acc : List (ℚ × ℚ) × Option ℕ × List ℕ) (p : String × PlayerState) :
    List (ℚ × ℚ) × Option ℕ × List ℕ :=
  let idx := (lookupIdx player_id_to_idx p.1).getD 0
  (acc.1.set idx (p.2.x, p.2.y),
   if p.2.has_ball then some idx else acc.2.1,
   if lookupTeam player_team_map p.1 = some away_team_id then
     acc.2.2.set idx 1 else acc.2.2)

/-- MatchState.from_game_state: enumerate the players of the GameState,
assign indices in insertion order, fill the position rows (ball written
last into row N), record the last ball holder seen, mark away-team rows
in team_ids, and translate possession to 0/1. -/
def MState.from_game_state (game_state : GameState)
    (home_team_id away_team_id : String)
    (player_team_map : List (String × String)) : MState :=
  let player_ids := game_state.players.map Prod.fst
  let num_players := player_ids.length
  let player_id_to_idx := player_ids.enum.map fun p => (p.2, p.1)
  let idx_to_player_id := player_ids.enum
  let base : List (ℚ × ℚ) × Option ℕ × List ℕ :=
    (List.replicate (num_players + 1) (0, 0), none, List.replicate num_players 0)
  let filled := game_state.players.foldl
    (fillAcc player_id_to_idx player_team_map away_team_id) base
  { time := game_state.timestamp
    period := game_state.period
    score := (game_state.score_home, game_state.score_away)
    positions := filled.1.set num_players (game_state.ball.x, game_state.ball.y)
    velocities := List.replicate (num_players + 1) (0, 0)
    stamina := List.replicate num_players 1
    team_ids := filled.2.2
    ball_owner_idx := filled.2.1
    possession_team :=
      if game_state.possession_team = some away_team_id then 1 else 0
    player_id_to_idx := player_id_to_idx
    idx_to_player_id := idx_to_player_id
    last_event := game_state.last_event
    events := [] }

/-- One iteration of the player loop in
MatchState.sync_from_game_state: an unseen player grows every array by
one row, keeping the ball in the last position/velocity row; then the
velocity is the position delta, the position is overwritten, and the
ball holder index is recorded. -/
def syncPlayer (m : MState) (pid : String) (ps : PlayerState) : MState :=
  let m1 :=
    if (lookupIdx m.player_id_to_idx pid).isSome then m
    else
      let new_idx := m.player_id_to_idx.length
      { m with
        player_id_to_idx := m.player_id_to_idx ++ [(pid, new_idx)]
        idx_to_player_id := m.idx_to_player_id ++ [(new_idx, pid)]
        positions := m.positions.dropLast ++ [(ps.x, ps.y), m.positions.getLastD (0, 0)]
        velocities := m.velocities.dropLast ++ [(0, 0), m.velocities.getLastD (0, 0)]
        stamina := m.stamina ++ [1]
        team_ids := m.team_ids ++ [0] }
  let idx := (lookupIdx m1.player_id_to_idx pid).getD 0
  let old_pos := m1.positions.getD idx (0, 0)
  { m1 with
    velocities := m1.velocities.set idx (ps.x - old_pos.1, ps.y - old_pos.2)
    positions := m1.positions.set idx (ps.x, ps.y)
    ball_owner_idx := if ps.has_ball then some idx else m1.ball_owner_idx }

/-- The scalar-refresh step at the head of
MatchState.sync_from_game_state (the ball holder is cleared before the
player loop re-establishes it). -/
def syncScalars (m : MState) (game_state : GameState) : MState :=
  { m with
    time := game_state.timestamp
    period := game_state.period
    score := (game_state.score_home, game_state.score_away)
    last_event := game_state.last_event
    ball_owner_idx := none }

/-- MatchState.sync_from_game_state: refresh scalars, clear the ball
holder, run the player loop, then write the ball into the last row. -/
def MState.sync_from_game_state (m : MState) (game_state : GameState) : MState :=
  let m1 := syncScalars m game_state
  let m2 := game_state.players.foldl (fun acc p => syncPlayer acc p.1 p.2) m1
  { m2 with positions :=
      m2.positions.set (m2.positions.length - 1) (game_state.ball.x, game_state.ball.y) }

/-- Number of players of a GameState not yet tracked by the mirror's
id-to-index map. -/
def countUnseen (idx_map : List (String × ℕ))
    (players : List (String × PlayerState)) : ℕ :=
  (players.filter fun p => (lookupIdx idx_map p.1).isNone).length

/-- Mirror states produced by from_game_state and then resynchronized
any number of times, as the engine does. -/
inductive MirrorReachable : MState → Prop
  | init (game_state : GameState) (home_team_id away_team_id : String)
      (player_team_map : List (String × String)) :
      MirrorReachable
        (MState.from_game_state game_state home_team_id away_team_id player_team_map)
  | sync (m : MState) (game_state : GameState) :
      MirrorReachable m → MirrorReachable (m.sync_from_game_state game_state)

/-
History Tracker (src/match_state.py, MatchHistory).
last_snapshot_time is initialized to -inf; it is modelled as Option ℚ
with none standing for -inf, for which the throttle test
state.time - last < interval is always false.
-/

structure MatchHistory where
  max_snapshots : ℕ
  interval : ℚ
  snapshots : List MState
  last_snapshot_time : Option ℚ

def mkMatchHistory (max_snapshots : ℕ) (interval_seconds : ℚ) : MatchHistory :=
  { max_snapshots := max_snapshots, interval := interval_seconds,
    snapshots := [], last_snapshot_time := none }

/-- The throttle test of MatchHistory.record:
state.time - self.last_snapshot_time < self.interval. -/
def intervalNotElapsed (h : MatchHistory) (t : ℚ) : Bool :=
  match h.last_snapshot_time with
  | none => false
  | some l => decide (t - l < h.interval)

/-- MatchHistory.record: reject a non-forced snapshot inside the
throttle interval; otherwise append a copy of the state, remember its
time, and evict the oldest snapshot (pop(0), i.e. tail) once the
capacity is exceeded.  Returns the history and the stored flag. -/
def MatchHistory.record (h : MatchHistory) (state : MState)
    (force : Bool) : MatchHistory × Bool :=
  if !force && intervalNotElapsed h state.time then (h, false)
  else
    let snapshots := h.snapshots ++ [state]
    let snapshots :=
      if h.max_snapshots < snapshots.length then snapshots.tail else snapshots
    ({ h with snapshots := snapshots, last_snapshot_time := some state.time }, true)

/-- Histories built by record calls from a fresh tracker.  The
allowForce flag restricts which record calls the run may contain
(allowForce = false describes runs of non-forced records only). -/
inductive HistoryReachable (allowForce : Bool) : MatchHistory → Prop
  | init (max_snapshots : ℕ) (interval_seconds : ℚ) :
      HistoryReachable allowForce (mkMatchHistory max_snapshots interval_seconds)
  | step (h : MatchHistory) (state : MState) (force : Bool) :
      HistoryReachable allowForce h → (force = true → allowForce = true) →
      HistoryReachable allowForce ((h.record state force).1)

/-
Playback / Seek controller (the GameEngine class itself).  The fields
below are the mutable attributes of the class plus the data computed
once in __init__ and immutable afterwards:
- kickoff is the value of _initialize_game_state() (a pure function of
  the roster, called at construction and again on every seek);
- player_positions / ball_positions are the timelines built by
  _build_position_timeline / _build_ball_timeline;
- defaultPos pid is _get_default_position(pid, ·) (metadata cache);
- tactical pid is the oracle for _get_tactical_position(pid, ·) (its
  jitter is transcendental, see the header note).
-/

structure BallSample where
  t : ℚ
  x : ℚ
  y : ℚ
  z : ℚ

/-- The bracket loop of _interpolate_ball_position: before is the last
sample with t ≤ timestamp; the loop breaks at the first sample with
t ≥ timestamp. -/
def findBallBracketAux (timestamp : ℚ) (before : Option BallSample) :
    List BallSample → Option BallSample × Option BallSample
  | [] => (before, none)
  | s :: rest =>
    let b := if s.t ≤ timestamp then some s else before
    if s.t ≥ timestamp then (b, some s)
    else findBallBracketAux timestamp b rest

/-- GameEngine._interpolate_ball_position: centre spot when the
timeline is empty, clamp to the first/last sample outside the data,
return the earlier sample on a zero gap, else interpolate linearly. -/
def interpolateBallPosition (timeline : List BallSample) (timestamp : ℚ) :
    ℚ × ℚ × ℚ :=
  match timeline with
  | [] => (60, 40, 0)
  | first :: _ =>
    match findBallBracketAux timestamp none timeline with
    | (none, _) => (first.x, first.y, first.z)
    | (some b, none) =>
      let last := timeline.getLastD first
      (last.x, last.y, last.z)
    | (some b, some a) =>
      if a.t = b.t then (b.x, b.y, b.z)
      else
        let factor := (timestamp - b.t) / (a.t - b.t)
        (b.x + (a.x - b.x) * factor, b.y + (a.y - b.y) * factor,
         b.z + (a.z - b.z) * factor)

structure Engine where
  events : List Event
  home_team_id : String
  away_team_id : String
  current_event_index : ℕ
  current_timestamp : ℚ
  playback_speed : ℚ
  current_state : GameState
  kickoff : GameState
  player_positions : String → List Sample
  ball_positions : List BallSample
  tactical : String → ℚ → ℚ × ℚ
  defaultPos : String → ℚ × ℚ
  match_state : Option MState
  match_history : Option MatchHistory

/-- GameEngine.update(dt): advance the clock by dt × playback_speed;
if the cursor's event has become due, process it (once — the source
tests a single event with an if, not a loop) and advance the cursor;
re-interpolate every tracked player and the ball at the new clock;
stamp the state; resynchronize the mirror and record history. -/
def Engine.update (eng : Engine) (dt : ℚ) : Engine :=
  let ts := eng.current_timestamp + dt * eng.playback_speed
  let eng1 := { eng with current_timestamp := ts }
  let eng2 :=
    match eng1.events.get? eng1.current_event_index with
    | some next_event =>
      if ts ≥ globalTime next_event then
        { eng1 with
          current_state :=
            processEvent eng1.home_team_id eng1.defaultPos
              eng1.current_state next_event
          current_event_index := eng1.current_event_index + 1 }
      else eng1
    | none => eng1
  let players := eng2.current_state.players.map fun p =>
    let xy := interpolatePosition (eng2.tactical p.1) (eng2.defaultPos p.1)
      (eng2.player_positions p.1) ts
    (p.1, { p.2 with x := xy.1, y := xy.2 })
  let bxyz := interpolateBallPosition eng2.ball_positions ts
  let st := { eng2.current_state with
    players := players
    ball := { eng2.current_state.ball with
      x := bxyz.1, y := bxyz.2.1, z := bxyz.2.2 }
    timestamp := ts }
  let ms := eng2.match_state.map fun m => m.sync_from_game_state st
  let mh :=
    match ms, eng2.match_history with
    | some m, some h => some (h.record m false).1
    | _, _ => eng2.match_history
  { eng2 with current_state := st, match_state := ms, match_history := mh }

/-- GameEngine.seek_to_time(timestamp): set the clock; search for the
first event strictly later than the target (the cursor is left
untouched when the search never fires); rebuild the state from the
kickoff configuration by replaying events[:cursor]; then force a
position recomputation at the target time. -/
def Engine.seek_to_time (eng : Engine) (timestamp : ℚ) : Engine :=
  let eng1 := { eng with current_timestamp := timestamp }
  let idx :=
    match eng1.events.findIdx? (fun e => decide (globalTime e > timestamp)) with
    | some i => i
    | none => eng1.current_event_index
  let eng2 := { eng1 with current_event_index := idx }
  let st := (eng2.events.take idx).foldl
    (processEvent eng2.home_team_id eng2.defaultPos) eng2.kickoff
  let players := st.players.map fun p =>
    let xy := interpolatePosition (eng2.tactical p.1) (eng2.defaultPos p.1)
      (eng2.player_positions p.1) timestamp
    (p.1, { p.2 with x := xy.1, y := xy.2 })
  let bxyz := interpolateBallPosition eng2.ball_positions timestamp
  { eng2 with current_state := { st with
      players := players
      ball := { st.ball with x := bxyz.1, y := bxyz.2.1, z := bxyz.2.2 }
      timestamp := timestamp } }

/-- Kickoff state with an empty starting lineup, for concrete engine
test inputs (starters are irrelevant to cursor and score behaviour). -/
def emptyKickoff : GameState :=
  { timestamp := 0, period := 1, score_home := 0, score_away := 0,
    possession_team := some "H", players := [],
    ball := { x := 60, y := 40, z := 0, in_play := true }, last_event := none }

/-- A goal shot by the home team at local time t of period 1. -/
def homeGoalAt (t : ℚ) : Event :=
  { timestamp := t, period := some 1, eventType := EventType.SHOT,
    result := some "GOAL", team := some "H", player := none }

/-- A freshly initialized engine holding the given event log. -/
def freshEngine (events : List Event) : Engine :=
  { events := events, home_team_id := "H", away_team_id := "A",
    current_event_index := 0, current_timestamp := 0, playback_speed := 1,
    current_state := emptyKickoff, kickoff := emptyKickoff,
    player_positions := fun _ => [], ball_positions := [],
    tactical := fun _ _ => (60, 40), defaultPos := fun _ => (60, 40),
    match_state := none, match_history := none }

/-- A minimal mirror state at the given time, for history test runs. -/
def testMirror (t : ℚ) : MState :=
  { time := t, period := 1, score := (0, 0), positions := [(60, 40)],
    velocities := [(0, 0)], stamina := [], team_ids := [],
    ball_owner_idx := none, possession_team := 0,
    player_id_to_idx := [], idx_to_player_id := [],
    last_event := none, events := [] }

/-- A concrete run of the tracker: capacity 2, interval 1, three
non-forced records at times 0, 2 and 3. -/
def testHistoryRun : MatchHistory :=
  ((((mkMatchHistory 2 1).record (testMirror 0) false).1.record
      (testMirror 2) false).1.record (testMirror 3) false).1

/-- A one-player game state, for mirror shape tests. -/
def testGameState : GameState :=
  { timestamp := 5, period := 1, score_home := 0, score_away := 0,
    possession_team := some "H",
    players := [("p1", ⟨"p1", 1, 2, false, true⟩)],
    ball := ⟨30, 20, 0, true⟩, last_event := none }

/-- The same match one tick later, with a substitute p2 appearing. -/
def testGameState2 : GameState :=
  { testGameState with
    players := [("p1", ⟨"p1", 3, 4, true, true⟩), ("p2", ⟨"p2", 5, 6, false, true⟩)],
    ball := ⟨31, 21, 0, true⟩ }

def testMirrorFromGS : MState :=
  MState.from_game_state testGameState "H" "A" [("p1", "H")]

structure ArrayStore where
  pos : ℕ → List (ℚ × ℚ)
  vel : ℕ → List (ℚ × ℚ)
  stam : ℕ → List ℚ
  team : ℕ → List ℕ
  pmap : ℕ → List (String × ℕ)
  imap : ℕ → List (ℕ × String)
  next : ℕ

structure MatchStateRef where
  time : ℚ
  period : ℕ
  score : ℕ × ℕ
  posRef : ℕ
  velRef : ℕ
  stamRef : ℕ
  teamRef : ℕ
  ball_owner_idx : Option ℕ
  possession_team : ℕ
  pmapRef : ℕ
  imapRef : ℕ

/-- In-place mutation of the positions array of some state: write a new
value into its cell. -/
def writePos (h : ArrayStore) (r : ℕ) (v : List (ℚ × ℚ)) : ArrayStore :=
  { h with pos := fun i => if i = r then v else h.pos i }

def writeVel (h : ArrayStore) (r : ℕ) (v : List (ℚ × ℚ)) : ArrayStore :=
  { h with vel := fun i => if i = r then v else h.vel i }

def writeStam (h : ArrayStore) (r : ℕ) (v : List ℚ) : ArrayStore :=
  { h with stam := fun i => if i = r then v else h.stam i }

def writeTeam (h : ArrayStore) (r : ℕ) (v : List ℕ) : ArrayStore :=
  { h with team := fun i => if i = r then v else h.team i }

def writePmap (h : ArrayStore) (r : ℕ) (v : List (String × ℕ)) : ArrayStore :=
  { h with pmap := fun i => if i = r then v else h.pmap i }

def writeImap (h : ArrayStore) (r : ℕ) (v : List (ℕ × String)) : ArrayStore :=
  { h with imap := fun i => if i = r then v else h.imap i }

/-- MatchState.copy(): allocate a fresh cell per container holding the
same contents (the .copy() calls of the source constructor), keep the
scalar fields, drop the game-state back reference. -/
def MatchStateRef.copy (h : ArrayStore) (s : MatchStateRef) :
    ArrayStore × MatchStateRef :=
  let n := h.next
  ({ pos := fun i => if i = n then h.pos s.posRef else h.pos i
     vel := fun i => if i = n then h.vel s.velRef else h.vel i
     stam := fun i => if i = n then h.stam s.stamRef else h.stam i
     team := fun i => if i = n then h.team s.teamRef else h.team i
     pmap := fun i => if i = n then h.pmap s.pmapRef else h.pmap i
     imap := fun i => if i = n then h.imap s.imapRef else h.imap i
     next := n + 1 },
   { s with posRef := n, velRef := n, stamRef := n,
            teamRef := n, pmapRef := n, imapRef := n })

/-- A state's cells are all allocated in the store. -/
def ValidRef (s : MatchStateRef) (h : ArrayStore) : Prop :=
  s.posRef < h.next ∧ s.velRef < h.next ∧ s.stamRef < h.next ∧
  s.teamRef < h.next ∧ s.pmapRef < h.next ∧ s.imapRef < h.next

/-- A one-cell store holding one mirror state's containers. -/
def testStore : ArrayStore :=
  { pos := fun _ => [(1, 2), (60, 40)], vel := fun _ => [(0, 0), (0, 0)],
    stam := fun _ => [1], team := fun _ => [0],
    pmap := fun _ => [("p1", 0)], imap := fun _ => [(0, "p1")], next := 1 }

def testStateRef : MatchStateRef :=
  { time := 5, period := 1, score := (0, 0), posRef := 0, velRef := 0,
    stamRef := 0, teamRef := 0, ball_owner_idx := none,
    possession_team := 0, pmapRef := 0, imapRef := 0 }

/-- Clamping a rational to [0,1] is idempotent. -/
theorem clamp01_idem (p : ℚ) :
    max 0 (min 1 (max 0 (min 1 p))) = max 0 (min 1 p) := by
  have h0 : (0 : ℚ) ≤ max 0 (min 1 p) := le_max_left _ _
  have h1 : max 0 (min 1 p) ≤ 1 := by
    apply max_le (by norm_num) (min_le_left _ _)
  rw [min_eq_right h1, max_eq_right h0]

/-- Claim C10: smooth_interpolation clamps progress into [0,1], returns
start at progress 0 and endv at progress 1, and returns the exact
arithmetic midpoint at progress 1/2 (the quintic ease curve is symmetric
and equals one half at the midpoint). -/
theorem smooth_interpolation_spec (start endv progress : ℚ) :
    smooth_interpolation start endv progress
      = smooth_interpolation start endv (max 0 (min 1 progress)) ∧
    smooth_interpolation start endv 0 = start ∧
    smooth_interpolation start endv 1 = endv ∧
    smooth_interpolation start endv (1/2) = (start + endv) / 2 := by
  refine ⟨?_, ?_, ?_, ?_⟩
  · simp only [smooth_interpolation, clamp01_idem]
  · simp only [smooth_interpolation]
    norm_num
  · simp only [smooth_interpolation]
    norm_num
  · simp only [smooth_interpolation]
    norm_num
    ring

/-- Helper: the bracket for the two-sample midpoint scenario of C5. -/
theorem findBracket_midpoint :
    findBracket 103 [⟨100, 50, 40⟩, ⟨106, 60, 40⟩]
      = (some ⟨100, 50, 40⟩, some ⟨106, 60, 40⟩) := by
  norm_num [findBracket, findBracketAux]

/-- Helper: value of the interpolator in the two-sample midpoint
scenario of C5. -/
theorem interpolate_midpoint_value :
    interpolatePosition tacticalTest (60, 40)
      [⟨100, 50, 40⟩, ⟨106, 60, 40⟩] 103 = (55, 40) := by
  norm_num [interpolatePosition, findBracket_midpoint, smooth_interpolation]
  simp

/-- Claim C5 is false as stated: with samples (t=100, x=50, y=40) and
(t=106, x=60, y=40), the query at t=103 sits at progress 1/2 of the gap,
where the quintic ease curve equals exactly 1/2, so the interpolated x is
exactly 55 — the claim requires x ≠ 55. -/
theorem interpolate_midpoint_counterexample :
    ¬ ((interpolatePosition tacticalTest (60, 40)
          [⟨100, 50, 40⟩, ⟨106, 60, 40⟩] 103).2 = 40 ∧
       50 < (interpolatePosition tacticalTest (60, 40)
          [⟨100, 50, 40⟩, ⟨106, 60, 40⟩] 103).1 ∧
       (interpolatePosition tacticalTest (60, 40)
          [⟨100, 50, 40⟩, ⟨106, 60, 40⟩] 103).1 < 60 ∧
       (interpolatePosition tacticalTest (60, 40)
          [⟨100, 50, 40⟩, ⟨106, 60, 40⟩] 103).1 ≠ 55) := by
  simp only [interpolate_midpoint_value]
  norm_num

/-- Claim C5 (amended): with samples (t=100, x=50, y=40) and
(t=106, x=60, y=40), the query at t=103 returns y = 40 and
x strictly between 50 and 60; since t=103 is the exact midpoint of the
gap and the quintic ease-in/ease-out curve equals 1/2 there, x is
exactly 55 (coinciding with linear interpolation at the midpoint only). -/
theorem interpolate_midpoint_amended :
    interpolatePosition tacticalTest (60, 40)
        [⟨100, 50, 40⟩, ⟨106, 60, 40⟩] 103 = (55, 40) ∧
    50 < (interpolatePosition tacticalTest (60, 40)
        [⟨100, 50, 40⟩, ⟨106, 60, 40⟩] 103).1 ∧
    (interpolatePosition tacticalTest (60, 40)
        [⟨100, 50, 40⟩, ⟨106, 60, 40⟩] 103).1 < 60 := by
  simp only [interpolate_midpoint_value]
  norm_num

/-- Claim C6: when the bracketing samples around the query time are more
than 10 seconds apart, the interpolator blends from the earlier sample
toward the tactical position with weight progress/0.2 while progress is
below 0.2, returns exactly the tactical position while progress lies in
[0.2, 0.8], and blends from the later sample toward the tactical position
with weight (1 - progress)/0.2 when progress exceeds 0.8. -/
theorem interpolate_sparse_gap (tactical : ℚ → ℚ × ℚ) (defaultPos : ℚ × ℚ)
    (positions : List Sample) (ts : ℚ) (b a : Sample)
    (hbr : findBracket ts positions = (some b, some a))
    (hgap : a.t - b.t > 10) (_hb : b.t < ts) (_ha : ts < a.t) :
    ((ts - b.t) / (a.t - b.t) < 0.2 →
      interpolatePosition tactical defaultPos positions ts
        = (b.x + ((tactical ts).1 - b.x) * ((ts - b.t) / (a.t - b.t) / 0.2),
           b.y + ((tactical ts).2 - b.y) * ((ts - b.t) / (a.t - b.t) / 0.2))) ∧
    (0.2 ≤ (ts - b.t) / (a.t - b.t) → (ts - b.t) / (a.t - b.t) ≤ 0.8 →
      interpolatePosition tactical defaultPos positions ts = tactical ts) ∧
    (0.8 < (ts - b.t) / (a.t - b.t) →
      interpolatePosition tactical defaultPos positions ts
        = (a.x + ((tactical ts).1 - a.x) * ((1 - (ts - b.t) / (a.t - b.t)) / 0.2),
           a.y + ((tactical ts).2 - a.y) * ((1 - (ts - b.t) / (a.t - b.t)) / 0.2))) := by
  have hne : positions ≠ [] := by
    intro h
    rw [h] at hbr
    simp [findBracket, findBracketAux] at hbr
  have hrw : interpolatePosition tactical defaultPos positions ts =
      (if (ts - b.t) / (a.t - b.t) < 0.2 then
        (b.x + ((tactical ts).1 - b.x) * ((ts - b.t) / (a.t - b.t) / 0.2),
         b.y + ((tactical ts).2 - b.y) * ((ts - b.t) / (a.t - b.t) / 0.2))
      else if (ts - b.t) / (a.t - b.t) > 0.8 then
        (a.x + ((tactical ts).1 - a.x) * ((1 - (ts - b.t) / (a.t - b.t)) / 0.2),
         a.y + ((tactical ts).2 - a.y) * ((1 - (ts - b.t) / (a.t - b.t)) / 0.2))
      else ((tactical ts).1, (tactical ts).2)) := by
    unfold interpolatePosition
    rw [if_neg hne, hbr]
    dsimp only
    rw [if_pos hgap]
  refine ⟨?_, ?_, ?_⟩
  · intro h1
    rw [hrw, if_pos h1]
  · intro h1 h2
    rw [hrw, if_neg (by linarith), if_neg (by linarith)]
  · intro h1
    rw [hrw, if_neg (by linarith), if_pos h1]

/-- Witness for C6 at concrete inputs: samples at t=0 and t=20 (gap 20 >
10s), oracle tactical position (4, 6); querying t=2 (progress 0.1 < 0.2)
yields the half blend (2, 3), and querying t=10 (progress 0.5) yields the
pure tactical position. -/
theorem interpolate_sparse_gap_witness :
    interpolatePosition tacticalTest (60, 40) [⟨0, 0, 0⟩, ⟨20, 10, 10⟩] 2
        = (2, 3) ∧
    interpolatePosition tacticalTest (60, 40) [⟨0, 0, 0⟩, ⟨20, 10, 10⟩] 10
        = (4, 6) := by
  constructor
  · have h := interpolate_sparse_gap tacticalTest (60, 40)
      [⟨0, 0, 0⟩, ⟨20, 10, 10⟩] 2 ⟨0, 0, 0⟩ ⟨20, 10, 10⟩
      (by norm_num [findBracket, findBracketAux]) (by norm_num)
      (by norm_num) (by norm_num)
    rw [h.1 (by norm_num)]
    norm_num [tacticalTest]
  · have h := interpolate_sparse_gap tacticalTest (60, 40)
      [⟨0, 0, 0⟩, ⟨20, 10, 10⟩] 10 ⟨0, 0, 0⟩ ⟨20, 10, 10⟩
      (by norm_num [findBracket, findBracketAux]) (by norm_num)
      (by norm_num) (by norm_num)
    rw [h.2.1 (by norm_num) (by norm_num)]
    norm_num [tacticalTest]

/-- Claim C7: when only a past sample brackets the query time, the
interpolator returns that sample verbatim while the elapsed time is at
most 5 seconds, blends linearly toward the tactical position with weight
(elapsed - 5)/5 while the elapsed time lies strictly between 5 and 10
seconds, and returns the pure tactical position (weight clamped to 1)
once the elapsed time reaches 10 seconds. -/
theorem interpolate_past_only (tactical : ℚ → ℚ × ℚ) (defaultPos : ℚ × ℚ)
    (positions : List Sample) (ts : ℚ) (b : Sample)
    (hbr : findBracket ts positions = (some b, none)) :
    (ts - b.t ≤ 5 →
      interpolatePosition tactical defaultPos positions ts = (b.x, b.y)) ∧
    (5 < ts - b.t → ts - b.t < 10 →
      interpolatePosition tactical defaultPos positions ts
        = (b.x + ((tactical ts).1 - b.x) * ((ts - b.t - 5) / 5),
           b.y + ((tactical ts).2 - b.y) * ((ts - b.t - 5) / 5))) ∧
    (10 ≤ ts - b.t →
      interpolatePosition tactical defaultPos positions ts = tactical ts) := by
  have hne : positions ≠ [] := by
    intro h
    rw [h] at hbr
    simp [findBracket, findBracketAux] at hbr
  have hrw : interpolatePosition tactical defaultPos positions ts =
      (if ts - b.t > 5 then
        (b.x + ((tactical ts).1 - b.x) * min 1 ((ts - b.t - 5) / 5),
         b.y + ((tactical ts).2 - b.y) * min 1 ((ts - b.t - 5) / 5))
      else (b.x, b.y)) := by
    unfold interpolatePosition
    rw [if_neg hne, hbr]
  refine ⟨?_, ?_, ?_⟩
  · intro h1
    rw [hrw, if_neg (not_lt.mpr h1)]
  · intro h1 h2
    rw [hrw, if_pos h1, min_eq_right (by linarith : (ts - b.t - 5) / 5 ≤ 1)]
  · intro h1
    rw [hrw, if_pos (by linarith), min_eq_left (by linarith : (1:ℚ) ≤ (ts - b.t - 5) / 5)]
    have hone : ∀ u v : ℚ, u + (v - u) * 1 = v := fun u v => by ring
    simp only [hone]

/-- Witness for C7 at concrete inputs: single sample (t=0, x=7, y=8) with
oracle tactical position (4, 6); querying t=3 (elapsed 3 ≤ 5) returns the
sample verbatim, querying t=7.5 (elapsed 7.5) returns the half blend, and
querying t=12 (elapsed 12 ≥ 10) returns the pure tactical position. -/
theorem interpolate_past_only_witness :
    interpolatePosition tacticalTest (60, 40) [⟨0, 7, 8⟩] 3 = (7, 8) ∧
    interpolatePosition tacticalTest (60, 40) [⟨0, 7, 8⟩] (15/2) = (11/2, 7) ∧
    interpolatePosition tacticalTest (60, 40) [⟨0, 7, 8⟩] 12 = (4, 6) := by
  refine ⟨?_, ?_, ?_⟩
  · have h := interpolate_past_only tacticalTest (60, 40) [⟨0, 7, 8⟩] 3 ⟨0, 7, 8⟩
      (by norm_num [findBracket, findBracketAux])
    rw [h.1 (by norm_num)]
  · have h := interpolate_past_only tacticalTest (60, 40) [⟨0, 7, 8⟩] (15/2) ⟨0, 7, 8⟩
      (by norm_num [findBracket, findBracketAux])
    rw [h.2.1 (by norm_num) (by norm_num)]
    norm_num [tacticalTest]
  · have h := interpolate_past_only tacticalTest (60, 40) [⟨0, 7, 8⟩] 12 ⟨0, 7, 8⟩
      (by norm_num [findBracket, findBracketAux])
    rw [h.2.2 (by norm_num)]
    norm_num [tacticalTest]

/-
World-state data model, from the dataclasses of src/game_engine.py and
the kloppy event fields the engine reads.  An Event here carries exactly
the fields GameEngine consumes: local timestamp (seconds), period id,
event kind, result name, team id and player id (team/player optional, as
the kloppy references can be None).
-/

/-- Helper: in a list with nodup keys, at most one entry carries any
given key. -/
theorem countP_key_le_one (players : List (String × PlayerState)) (pid : String)
    (hnd : (playerKeys players).Nodup) :
    players.countP (fun p => decide (p.1 = pid)) ≤ 1 := by
  induction players with
  | nil => simp [List.countP_nil]
  | cons hd tl ih =>
    rw [playerKeys, List.map_cons, List.nodup_cons] at hnd
    rw [List.countP_cons]
    by_cases hk : hd.1 = pid
    · have hzero : tl.countP (fun p => decide (p.1 = pid)) = 0 := by
        rw [List.countP_eq_zero]
        intro p hp
        simp only [decide_eq_true_eq]
        intro hcontra
        exact hnd.1 (hk ▸ hcontra ▸ List.mem_map_of_mem Prod.fst hp)
      simp [hzero, hk]
    · simp only [hk, decide_False, if_false]
      simpa using ih hnd.2

/-- processEvent acts on the player map exactly as possessionUpdate. -/
theorem processEvent_players (home_team_id : String)
    (defaultPos : String → ℚ × ℚ) (state : GameState) (event : Event) :
    (processEvent home_team_id defaultPos state event).players
      = possessionUpdate defaultPos event state.players := by
  unfold processEvent possessionUpdate
  cases event.period <;> cases event.team <;> cases event.player <;>
    simp only [apply_ite GameState.players, ite_self]

/-- Clearing all flags leaves nobody with the ball. -/
theorem countWithBall_clear (players : List (String × PlayerState)) :
    countWithBall (players.map clearBall) = 0 := by
  rw [countWithBall, List.countP_eq_zero]
  intro p hp
  rcases List.mem_map.mp hp with ⟨q, _, rfl⟩
  simp [clearBall]

/-- giveBall and clearBall preserve keys. -/
theorem playerKeys_map_clear (players : List (String × PlayerState)) :
    playerKeys (players.map clearBall) = playerKeys players := by
  simp only [playerKeys, List.map_map]
  rfl

theorem playerKeys_map_give (pid : String) (players : List (String × PlayerState)) :
    playerKeys (players.map (giveBall pid)) = playerKeys players := by
  simp only [playerKeys, List.map_map]
  apply List.map_congr_left
  intro p _
  simp only [Function.comp_apply, giveBall]
  split_ifs <;> rfl

/-- Claim C4: after any application of the event processor to a world
state with duplicate-free player keys, at most one tracked player holds
the possession flag; every holder is the event's acting player; and the
keys stay duplicate-free (so the property propagates through any
sequence of ticks and seeks, which mutate flags only via the event
processor). -/
theorem processEvent_possession (home_team_id : String)
    (defaultPos : String → ℚ × ℚ) (state : GameState) (event : Event)
    (hnd : (playerKeys state.players).Nodup) :
    countWithBall (processEvent home_team_id defaultPos state event).players ≤ 1 ∧
    (∀ p ∈ (processEvent home_team_id defaultPos state event).players,
      p.2.has_ball = true → event.player = some p.1) ∧
    (playerKeys (processEvent home_team_id defaultPos state event).players).Nodup := by
  rw [processEvent_players]
  unfold possessionUpdate
  cases hp : event.player with
  | none =>
    refine ⟨by simp [countWithBall_clear], ?_, ?_⟩
    · intro p hmem hball
      rcases List.mem_map.mp hmem with ⟨q, _, rfl⟩
      simp [clearBall] at hball
    · rwa [playerKeys_map_clear]
  | some pid =>
    by_cases hk : hasKey (state.players.map clearBall) pid
    · simp only [hk, if_true]
      refine ⟨?_, ?_, ?_⟩
      · have hcomp : countWithBall ((state.players.map clearBall).map (giveBall pid))
            = state.players.countP fun p => decide (p.1 = pid) := by
          rw [countWithBall, List.map_map, List.countP_map]
          apply List.countP_congr
          intro p _
          by_cases h : p.1 = pid <;> simp [giveBall, clearBall, h]
        rw [hcomp]
        exact countP_key_le_one state.players pid hnd
      · intro p hmem hball
        rcases List.mem_map.mp hmem with ⟨q, hq, rfl⟩
        rcases List.mem_map.mp hq with ⟨r, _, rfl⟩
        by_cases h : r.1 = pid
        · simp [giveBall, clearBall, h]
        · simp [giveBall, clearBall, h] at hball
      · rw [playerKeys_map_give, playerKeys_map_clear]
        exact hnd
    · simp only [Bool.not_eq_true] at hk
      simp only [hk, Bool.false_eq_true, if_false]
      have hnotin : pid ∉ playerKeys (state.players.map clearBall) := by
        intro hmem
        rw [playerKeys] at hmem
        rcases List.mem_map.mp hmem with ⟨q, hq, hfst⟩
        have hkey : hasKey (state.players.map clearBall) pid = true := by
          rw [hasKey, List.any_eq_true]
          exact ⟨q, hq, by simp [hfst]⟩
        rw [hk] at hkey
        exact absurd hkey (by decide)
      refine ⟨?_, ?_, ?_⟩
      · rw [countWithBall, List.countP_append]
        have h0 : countWithBall (state.players.map clearBall) = 0 :=
          countWithBall_clear state.players
        rw [countWithBall] at h0
        rw [h0]
        simp [newHolder]
      · intro p hmem hball
        rcases List.mem_append.mp hmem with hmem | hmem
        · rcases List.mem_map.mp hmem with ⟨q, _, rfl⟩
          simp [clearBall] at hball
        · rcases List.mem_singleton.mp hmem with rfl
          rfl
      · rw [playerKeys, List.map_append, List.nodup_append]
        refine ⟨by rw [← playerKeys]; rwa [playerKeys_map_clear], by simp, ?_⟩
        intro k hk1
        simp only [List.map_cons, List.map_nil, List.mem_singleton]
        intro hk2
        subst hk2
        exact hnotin (by rwa [playerKeys])

/-- Witness for C4 at a concrete input: a two-player state in which both
players somehow hold the flag still ends with at most one holder after a
pass event by p1. -/
theorem processEvent_possession_witness :
    countWithBall (processEvent "H" (fun _ => (60, 40))
      { timestamp := 0, period := 1, score_home := 0, score_away := 0,
        possession_team := some "H",
        players := [("p1", ⟨"p1", 1, 2, true, true⟩), ("p2", ⟨"p2", 3, 4, true, true⟩)],
        ball := ⟨60, 40, 0, true⟩, last_event := none }
      { timestamp := 30, period := some 1, eventType := EventType.OTHER,
        result := none, team := some "H", player := some "p1" }).players ≤ 1 := by
  exact (processEvent_possession "H" (fun _ => (60, 40)) _ _ (by simp [playerKeys])).1

/-
State Mirror (src/match_state.py).  NumPy arrays become Lists, dicts
become association lists in insertion order.  MatchState.copy() produces
a deep copy; in this value-semantics model a copy is the value itself
(the aliasing content of copy() is verified separately against an
explicit heap model below).
-/

/-- Claim C1 is false as stated: with two home goal events at global
times 1 and 2 and a single update(10) call from a fresh engine (so both
events are due at the new current time 10), only the first event is
applied — the cursor stops at 1 (not past the second due event) and the
score counts one goal, not two. -/
theorem update_all_due_counterexample :
    ((freshEngine [homeGoalAt 1, homeGoalAt 2]).update 10).current_event_index = 1 ∧
    ((freshEngine [homeGoalAt 1, homeGoalAt 2]).update 10).current_state.score_home = 1 ∧
    globalTime (homeGoalAt 2)
      ≤ ((freshEngine [homeGoalAt 1, homeGoalAt 2]).update 10).current_timestamp := by
  norm_num [Engine.update, freshEngine, emptyKickoff, homeGoalAt, globalTime,
    periodOffset, processEvent, interpolateBallPosition, findBallBracketAux,
    hasKey]

/-- Claim C1 (amended): update(dt) advances the current time by
dt × playback_speed, and when the event at the cursor is due at the new
time it is applied through the event processor with the cursor advanced
by exactly one — a single update call processes at most this first due
event; later events that are already due wait for subsequent calls. -/
theorem update_processes_first_due_event (eng : Engine) (dt : ℚ) (ev : Event)
    (hev : eng.events.get? eng.current_event_index = some ev)
    (hdue : globalTime ev ≤ eng.current_timestamp + dt * eng.playback_speed) :
    (eng.update dt).current_timestamp
        = eng.current_timestamp + dt * eng.playback_speed ∧
    (eng.update dt).current_event_index = eng.current_event_index + 1 ∧
    (eng.update dt).current_state.score_home
        = (processEvent eng.home_team_id eng.defaultPos eng.current_state ev).score_home ∧
    (eng.update dt).current_state.score_away
        = (processEvent eng.home_team_id eng.defaultPos eng.current_state ev).score_away ∧
    (eng.update dt).current_state.possession_team
        = (processEvent eng.home_team_id eng.defaultPos eng.current_state ev).possession_team := by
  unfold Engine.update
  dsimp only
  rw [hev]
  dsimp only
  simp only [ge_iff_le]
  rw [if_pos hdue]
  exact ⟨rfl, rfl, rfl, rfl, rfl⟩

/-- Witness for C1 (amended) at a concrete input: a fresh engine with a
single home goal at global time 1; update(10) moves the clock to 10,
the cursor to 1, and scores the goal. -/
theorem update_processes_first_due_event_witness :
    ((freshEngine [homeGoalAt 1]).update 10).current_timestamp = 10 ∧
    ((freshEngine [homeGoalAt 1]).update 10).current_event_index = 1 ∧
    ((freshEngine [homeGoalAt 1]).update 10).current_state.score_home
      = (processEvent "H" (freshEngine [homeGoalAt 1]).defaultPos
          emptyKickoff (homeGoalAt 1)).score_home := by
  have h := update_processes_first_due_event (freshEngine [homeGoalAt 1]) 10
    (homeGoalAt 1) (by rfl)
    (by norm_num [globalTime, homeGoalAt, periodOffset, freshEngine])
  refine ⟨?_, ?_, ?_⟩
  · rw [h.1]
    norm_num [freshEngine]
  · rw [h.2.1]
    rfl
  · rw [h.2.2.1]
    rfl

/-- Claim C2 exhibits a defect in seek_to_time: on a fresh engine whose
log holds a single home goal at global time 600, seek_to_time(700) finds
no event with time > 700, leaves the cursor at 0 and replays nothing, so
score_home stays 0 — although the event processor itself would score
the goal (third conjunct), as the specified replay semantics requires.
seek_to_time(500) correctly yields score_home = 0. -/
theorem seek_past_last_event_bug :
    ((freshEngine [homeGoalAt 600]).seek_to_time 700).current_state.score_home = 0 ∧
    ((freshEngine [homeGoalAt 600]).seek_to_time 500).current_state.score_home = 0 ∧
    (processEvent "H" (freshEngine [homeGoalAt 600]).defaultPos
        emptyKickoff (homeGoalAt 600)).score_home = 1 := by
  refine ⟨?_, ?_, ?_⟩
  · norm_num [Engine.seek_to_time, freshEngine, emptyKickoff, homeGoalAt,
      globalTime, periodOffset, List.findIdx?, processEvent,
      interpolateBallPosition, findBallBracketAux]
  · norm_num [Engine.seek_to_time, freshEngine, emptyKickoff, homeGoalAt,
      globalTime, periodOffset, List.findIdx?, processEvent,
      interpolateBallPosition, findBallBracketAux]
  · norm_num [processEvent, freshEngine, emptyKickoff, homeGoalAt, hasKey]

/-- record rejects a non-forced snapshot inside the throttle window. -/
theorem record_reject (h : MatchHistory) (s : MState)
    (hrej : intervalNotElapsed h s.time = true) :
    h.record s false = (h, false) := by
  rw [MatchHistory.record]
  simp [hrej]

/-- record accepts a non-forced snapshot outside the throttle window:
append, remember the time, evict the head past capacity. -/
theorem record_accept (h : MatchHistory) (s : MState)
    (hrej : intervalNotElapsed h s.time = false) :
    h.record s false =
      ({ h with
         snapshots :=
           if h.max_snapshots < (h.snapshots ++ [s]).length
           then (h.snapshots ++ [s]).tail else h.snapshots ++ [s]
         last_snapshot_time := some s.time }, true) := by
  rw [MatchHistory.record]
  simp [hrej]

/-- One record call keeps the snapshot count within capacity. -/
theorem record_length_le (h : MatchHistory) (s : MState) (f : Bool)
    (hlen : h.snapshots.length ≤ h.max_snapshots) :
    ((h.record s f).1).snapshots.length ≤ ((h.record s f).1).max_snapshots := by
  rw [MatchHistory.record]
  by_cases hrej : (!f && intervalNotElapsed h s.time) = true
  · simp [hrej, hlen]
  · simp only [hrej, if_false, Bool.false_eq_true]
    by_cases hcap : h.max_snapshots < h.snapshots.length + 1
    · simp [List.length_append, hcap, List.length_tail]
      omega
    · simp [List.length_append, hcap]
      omega

/-- The last retained snapshot, if any, carries the remembered time. -/
theorem tail_concat_getLast {α : Type} (l : List α) (s st : α)
    (h : ((l ++ [s]).tail).getLast? = some st) : st = s := by
  cases l with
  | nil => simp at h
  | cons a l2 =>
    rw [List.cons_append, List.tail_cons, List.getLast?_concat] at h
    injection h with h
    exact h.symm

/-- Claim C8: (1) every history reachable by record calls from a fresh
tracker stays within max_snapshots (oldest evicted first); (2) a
non-forced record stores a snapshot iff the state's time is at least the
configured interval past the last retained snapshot time; (3) in a run
of non-forced records, consecutive retained snapshots are never closer
together in time than the interval. -/
theorem match_history_spec :
    (∀ h, HistoryReachable true h → h.snapshots.length ≤ h.max_snapshots) ∧
    (∀ (h : MatchHistory) (s : MState), (h.record s false).2 = true ↔
      ∀ l, h.last_snapshot_time = some l → h.interval ≤ s.time - l) ∧
    (∀ h, HistoryReachable false h →
      h.snapshots.Chain' fun a b => h.interval ≤ b.time - a.time) := by
  refine ⟨?_, ?_, ?_⟩
  · intro h hr
    induction hr with
    | init mx iv => simp [mkMatchHistory]
    | step h2 s f _ _ ih => exact record_length_le h2 s f ih
  · intro h s
    rw [MatchHistory.record]
    cases hl : h.last_snapshot_time with
    | none => simp [intervalNotElapsed, hl]
    | some l =>
      by_cases hc : s.time - l < h.interval
      · simp only [intervalNotElapsed, hl, hc, decide_True, Bool.not_false,
          Bool.true_and, if_true]
        constructor
        · intro hf
          exact absurd hf (by decide)
        · intro hle
          exact absurd (hle l rfl) (not_le.mpr hc)
      · simp only [intervalNotElapsed, hl, hc, decide_False, Bool.not_false,
          Bool.true_and, Bool.false_eq_true, if_false]
        constructor
        · intro _ l2 hl2
          injection hl2 with hl2
          subst hl2
          exact not_lt.mp hc
        · intro _
          trivial
  · intro h hr
    have haux : ∀ hh, HistoryReachable false hh →
        (hh.snapshots.Chain' fun a b => hh.interval ≤ b.time - a.time) ∧
        ∀ st, hh.snapshots.getLast? = some st →
          hh.last_snapshot_time = some st.time := by
      intro hh hhr
      induction hhr with
      | init mx iv => simp [mkMatchHistory]
      | step h2 s f _ hf ih =>
        have hf0 : f = false := by
          cases f
          · rfl
          · exact absurd (hf rfl) (by decide)
        subst hf0
        cases hrej : intervalNotElapsed h2 s.time with
        | true =>
          rw [record_reject h2 s hrej]
          exact ih
        | false =>
          rw [record_accept h2 s hrej]
          have hchain1 : (h2.snapshots ++ [s]).Chain'
              (fun a b => h2.interval ≤ b.time - a.time) := by
            rw [List.chain'_append]
            refine ⟨ih.1, List.chain'_singleton _, ?_⟩
            intro x hx y hy
            simp only [List.head?_cons, Option.mem_def, Option.some.injEq] at hy
            subst hy
            have hlast := ih.2 x (Option.mem_def.mp hx)
            have hnot : ¬ (s.time - x.time < h2.interval) := by
              intro hlt
              simp [intervalNotElapsed, hlast, hlt] at hrej
            exact not_lt.mp hnot
          refine ⟨?_, ?_⟩
          · dsimp only
            split_ifs with hcap
            · exact hchain1.tail
            · exact hchain1
          · dsimp only
            intro st hst
            split_ifs at hst with hcap
            · rw [tail_concat_getLast _ _ _ hst]
            · rw [List.getLast?_concat] at hst
              injection hst with hst
              rw [← hst]
    exact (haux h hr).1

/-- Witness for C8 at a concrete run: a capacity-2, interval-1 tracker
after three non-forced records (times 0, 2, 3) satisfies the capacity
bound and the spacing chain of the theorem. -/
theorem match_history_spec_witness :
    testHistoryRun.snapshots.length ≤ testHistoryRun.max_snapshots ∧
    testHistoryRun.snapshots.Chain'
      (fun a b => testHistoryRun.interval ≤ b.time - a.time) := by
  have hreach : ∀ allowForce, HistoryReachable allowForce testHistoryRun := by
    intro allowForce
    exact HistoryReachable.step _ _ _
      (HistoryReachable.step _ _ _
        (HistoryReachable.step _ _ _ (HistoryReachable.init 2 1)
          (fun hcontra => absurd hcontra (by decide)))
        (fun hcontra => absurd hcontra (by decide)))
      (fun hcontra => absurd hcontra (by decide))
  exact ⟨match_history_spec.1 _ (hreach true),
    match_history_spec.2.2 _ (hreach false)⟩

/-- getD of set at the written index, in bounds. -/
theorem getD_set_self {α : Type} (l : List α) (n : ℕ) (b d : α)
    (h : n < l.length) : (l.set n b).getD n d = b := by
  induction l generalizing n with
  | nil => cases h
  | cons a l2 ih =>
    cases n with
    | zero => rfl
    | succ k => exact ih k (by simpa using h)

/-- Writing row n of an (n+1)-row array and reading the last row
returns the written value. -/
theorem getD_set_index {α : Type} (l : List α) (n : ℕ) (b d : α)
    (h : l.length = n + 1) :
    (l.set n b).getD ((l.set n b).length - 1) d = b := by
  rw [List.length_set, h, Nat.add_sub_cancel]
  exact getD_set_self _ _ _ _ (by omega)

/-- Appending an entry with a different key does not change a lookup. -/
theorem lookupIdx_append_ne (l : List (String × ℕ)) (pid : String) (n : ℕ)
    (k : String) (hk : k ≠ pid) :
    lookupIdx (l ++ [(pid, n)]) k = lookupIdx l k := by
  rw [lookupIdx, lookupIdx, List.find?_append]
  have h2 : List.find? (fun p => decide (p.1 = k)) [(pid, n)] = none := by
    simp [List.find?, Ne.symm hk]
  rw [h2, Option.or_none]

/-- syncPlayer grows the id map by the new entry exactly when the
player is unseen. -/
theorem syncPlayer_map (m : MState) (pid : String) (ps : PlayerState) :
    (syncPlayer m pid ps).player_id_to_idx =
      match lookupIdx m.player_id_to_idx pid with
      | some _ => m.player_id_to_idx
      | none => m.player_id_to_idx ++ [(pid, m.player_id_to_idx.length)] := by
  cases hseen : lookupIdx m.player_id_to_idx pid <;>
    simp [syncPlayer, hseen]

/-- syncPlayer grows the id map, stamina and team arrays by one entry
exactly when the player is unseen. -/
theorem syncPlayer_growth (m : MState) (pid : String) (ps : PlayerState) :
    (syncPlayer m pid ps).player_id_to_idx.length
        = m.player_id_to_idx.length
          + (if (lookupIdx m.player_id_to_idx pid).isSome then 0 else 1) ∧
    (syncPlayer m pid ps).stamina.length
        = m.stamina.length
          + (if (lookupIdx m.player_id_to_idx pid).isSome then 0 else 1) ∧
    (syncPlayer m pid ps).team_ids.length
        = m.team_ids.length
          + (if (lookupIdx m.player_id_to_idx pid).isSome then 0 else 1) := by
  cases hseen : lookupIdx m.player_id_to_idx pid <;>
    simp [syncPlayer, hseen, List.length_set]

/-- syncPlayer keeps the rows-equals-players-plus-ball alignment. -/
theorem syncPlayer_shape (m : MState) (pid : String) (ps : PlayerState)
    (hp : m.positions.length = m.player_id_to_idx.length + 1)
    (hv : m.velocities.length = m.player_id_to_idx.length + 1) :
    (syncPlayer m pid ps).positions.length
        = (syncPlayer m pid ps).player_id_to_idx.length + 1 ∧
    (syncPlayer m pid ps).velocities.length
        = (syncPlayer m pid ps).player_id_to_idx.length + 1 := by
  cases hseen : lookupIdx m.player_id_to_idx pid with
  | some i =>
    constructor <;> simp [syncPlayer, hseen, List.length_set, hp, hv]
  | none =>
    constructor <;>
      simp [syncPlayer, hseen, List.length_set, List.length_append,
        List.length_dropLast, hp, hv]

/-- Alignment is preserved through the whole player loop. -/
theorem syncFold_basic (players : List (String × PlayerState)) :
    ∀ m : MState,
    m.positions.length = m.player_id_to_idx.length + 1 →
    m.velocities.length = m.player_id_to_idx.length + 1 →
    (players.foldl (fun acc p => syncPlayer acc p.1 p.2) m).positions.length
      = (players.foldl (fun acc p => syncPlayer acc p.1 p.2) m).player_id_to_idx.length + 1 ∧
    (players.foldl (fun acc p => syncPlayer acc p.1 p.2) m).velocities.length
      = (players.foldl (fun acc p => syncPlayer acc p.1 p.2) m).player_id_to_idx.length + 1 := by
  induction players with
  | nil => intro m hp hv; exact ⟨hp, hv⟩
  | cons p rest ih =>
    intro m hp hv
    simp only [List.foldl_cons]
    obtain ⟨h1, h2⟩ := syncPlayer_shape m p.1 p.2 hp hv
    exact ih (syncPlayer m p.1 p.2) h1 h2

/-- The player loop grows the id map, stamina and team arrays by
exactly the number of unseen players (for duplicate-free rosters). -/
theorem syncFold_growth (players : List (String × PlayerState)) :
    ∀ m : MState,
    (players.map Prod.fst).Nodup →
    (players.foldl (fun acc p => syncPlayer acc p.1 p.2) m).player_id_to_idx.length
      = m.player_id_to_idx.length + countUnseen m.player_id_to_idx players ∧
    (players.foldl (fun acc p => syncPlayer acc p.1 p.2) m).stamina.length
      = m.stamina.length + countUnseen m.player_id_to_idx players ∧
    (players.foldl (fun acc p => syncPlayer acc p.1 p.2) m).team_ids.length
      = m.team_ids.length + countUnseen m.player_id_to_idx players := by
  induction players with
  | nil => intro m _; simp [countUnseen]
  | cons p rest ih =>
    intro m hnd
    rw [List.map_cons, List.nodup_cons] at hnd
    obtain ⟨hnotin, hnd2⟩ := hnd
    simp only [List.foldl_cons]
    obtain ⟨ih1, ih2, ih3⟩ := ih (syncPlayer m p.1 p.2) hnd2
    have hcount : countUnseen (syncPlayer m p.1 p.2).player_id_to_idx rest
        = countUnseen m.player_id_to_idx rest := by
      rw [countUnseen, countUnseen]
      apply congrArg List.length
      apply List.filter_congr
      intro q hq
      have hqne : q.1 ≠ p.1 := fun he =>
        hnotin (he ▸ List.mem_map_of_mem Prod.fst hq)
      rw [syncPlayer_map]
      cases hseen : lookupIdx m.player_id_to_idx p.1 with
      | some i => rfl
      | none => rw [lookupIdx_append_ne _ _ _ _ hqne]
    obtain ⟨hg1, hg2, hg3⟩ := syncPlayer_growth m p.1 p.2
    have hcons : countUnseen m.player_id_to_idx (p :: rest)
        = (if (lookupIdx m.player_id_to_idx p.1).isSome then 0 else 1)
          + countUnseen m.player_id_to_idx rest := by
      rw [countUnseen, countUnseen, List.filter_cons]
      cases hseen : lookupIdx m.player_id_to_idx p.1 with
      | some i => simp [hseen]
      | none =>
        simp [hseen]
        omega
    refine ⟨?_, ?_, ?_⟩
    · rw [ih1, hcount, hg1, hcons]
      omega
    · rw [ih2, hcount, hg2, hcons]
      omega
    · rw [ih3, hcount, hg3, hcons]
      omega

/-- The from_game_state fill loop never changes array lengths. -/
theorem fillAcc_foldl_lengths (idx_map : List (String × ℕ))
    (tm : List (String × String)) (away : String)
    (players : List (String × PlayerState)) :
    ∀ acc : List (ℚ × ℚ) × Option ℕ × List ℕ,
    (players.foldl (fillAcc idx_map tm away) acc).1.length = acc.1.length ∧
    (players.foldl (fillAcc idx_map tm away) acc).2.2.length = acc.2.2.length := by
  induction players with
  | nil => intro acc; exact ⟨rfl, rfl⟩
  | cons p rest ih =>
    intro acc
    simp only [List.foldl_cons]
    obtain ⟨h1, h2⟩ := ih (fillAcc idx_map tm away acc p)
    constructor
    · rw [h1]
      simp [fillAcc, List.length_set]
    · rw [h2]
      simp [fillAcc, List.length_set, apply_ite List.length]

/-- from_game_state establishes the alignment invariant, with the ball
in the last row. -/
theorem from_game_state_shape (g : GameState) (home_team_id away_team_id : String)
    (player_team_map : List (String × String)) :
    (MState.from_game_state g home_team_id away_team_id player_team_map).positions.length
      = (MState.from_game_state g home_team_id away_team_id player_team_map).player_id_to_idx.length + 1 ∧
    (MState.from_game_state g home_team_id away_team_id player_team_map).velocities.length
      = (MState.from_game_state g home_team_id away_team_id player_team_map).player_id_to_idx.length + 1 ∧
    (MState.from_game_state g home_team_id away_team_id player_team_map).stamina.length
      = (MState.from_game_state g home_team_id away_team_id player_team_map).player_id_to_idx.length ∧
    (MState.from_game_state g home_team_id away_team_id player_team_map).team_ids.length
      = (MState.from_game_state g home_team_id away_team_id player_team_map).player_id_to_idx.length ∧
    (MState.from_game_state g home_team_id away_team_id player_team_map).positions.getD
        ((MState.from_game_state g home_team_id away_team_id player_team_map).positions.length - 1) (0, 0)
      = (g.ball.x, g.ball.y) := by
  obtain ⟨hfill1, hfill2⟩ := fillAcc_foldl_lengths
    ((g.players.map Prod.fst).enum.map fun p => (p.2, p.1)) player_team_map
    away_team_id g.players
    (List.replicate ((g.players.map Prod.fst).length + 1) ((0 : ℚ), (0 : ℚ)),
     none, List.replicate (g.players.map Prod.fst).length 0)
  refine ⟨?_, ?_, ?_, ?_, ?_⟩
  · unfold MState.from_game_state
    dsimp only
    rw [List.length_set, hfill1]
    simp [List.enum_length]
  · unfold MState.from_game_state
    dsimp only
    simp [List.enum_length]
  · unfold MState.from_game_state
    dsimp only
    simp [List.enum_length]
  · unfold MState.from_game_state
    dsimp only
    rw [hfill2]
    dsimp only
    simp [List.enum_length, List.length_replicate, List.length_map]
  · unfold MState.from_game_state
    dsimp only
    exact getD_set_index _ _ _ _ (by rw [hfill1]; simp)

/-- sync_from_game_state preserves the alignment invariant and writes
the ball into the last row. -/
theorem sync_shape_basic (m : MState) (g : GameState)
    (hp : m.positions.length = m.player_id_to_idx.length + 1)
    (hv : m.velocities.length = m.player_id_to_idx.length + 1) :
    (m.sync_from_game_state g).positions.length
      = (m.sync_from_game_state g).player_id_to_idx.length + 1 ∧
    (m.sync_from_game_state g).velocities.length
      = (m.sync_from_game_state g).player_id_to_idx.length + 1 ∧
    (m.sync_from_game_state g).positions.getD
        ((m.sync_from_game_state g).positions.length - 1) (0, 0)
      = (g.ball.x, g.ball.y) := by
  obtain ⟨h1, h2⟩ := syncFold_basic g.players (syncScalars m g) hp hv
  unfold MState.sync_from_game_state
  dsimp only
  refine ⟨?_, ?_, ?_⟩
  · rw [List.length_set]
    exact h1
  · exact h2
  · rw [List.length_set]
    exact getD_set_self _ _ _ _ (by omega)

/-- Claim C3: (1) every mirror created by from_game_state and updated
only by sync_from_game_state keeps positions and velocities at exactly
(tracked players) + 1 rows; (2) syncing a duplicate-free game state
containing exactly one previously unseen player grows positions,
velocities, stamina and team arrays by exactly one entry; (3) after any
sync the ball is stored in the last positions row. -/
theorem mirror_shape_invariant :
    (∀ m, MirrorReachable m →
      m.positions.length = m.player_id_to_idx.length + 1 ∧
      m.velocities.length = m.player_id_to_idx.length + 1) ∧
    (∀ (m : MState) (g : GameState),
      m.positions.length = m.player_id_to_idx.length + 1 →
      m.velocities.length = m.player_id_to_idx.length + 1 →
      (g.players.map Prod.fst).Nodup →
      countUnseen m.player_id_to_idx g.players = 1 →
      (m.sync_from_game_state g).positions.length = m.positions.length + 1 ∧
      (m.sync_from_game_state g).velocities.length = m.velocities.length + 1 ∧
      (m.sync_from_game_state g).stamina.length = m.stamina.length + 1 ∧
      (m.sync_from_game_state g).team_ids.length = m.team_ids.length + 1) ∧
    (∀ (m : MState) (g : GameState),
      m.positions.length = m.player_id_to_idx.length + 1 →
      m.velocities.length = m.player_id_to_idx.length + 1 →
      (m.sync_from_game_state g).positions.getD
          ((m.sync_from_game_state g).positions.length - 1) (0, 0)
        = (g.ball.x, g.ball.y)) := by
  refine ⟨?_, ?_, ?_⟩
  · intro m hr
    induction hr with
    | init g home away tm =>
      obtain ⟨h1, h2, _, _, _⟩ := from_game_state_shape g home away tm
      exact ⟨h1, h2⟩
    | sync m2 g _ ih =>
      obtain ⟨h1, h2, _⟩ := sync_shape_basic m2 g ih.1 ih.2
      exact ⟨h1, h2⟩
  · intro m g hp hv hnd hone
    obtain ⟨hg1, hg2, hg3⟩ := syncFold_growth g.players (syncScalars m g) hnd
    obtain ⟨hb1, hb2⟩ := syncFold_basic g.players (syncScalars m g) hp hv
    have hsc : (syncScalars m g).player_id_to_idx = m.player_id_to_idx := rfl
    have hsc2 : (syncScalars m g).stamina = m.stamina := rfl
    have hsc3 : (syncScalars m g).team_ids = m.team_ids := rfl
    simp only [hsc, hsc2, hsc3] at hg1 hg2 hg3
    refine ⟨?_, ?_, ?_, ?_⟩
    · unfold MState.sync_from_game_state
      dsimp only
      rw [List.length_set]
      omega
    · unfold MState.sync_from_game_state
      dsimp only
      omega
    · unfold MState.sync_from_game_state
      dsimp only
      omega
    · unfold MState.sync_from_game_state
      dsimp only
      omega
  · intro m g hp hv
    exact (sync_shape_basic m g hp hv).2.2

/-- Witness for C3 at a concrete input: the mirror of a one-player
state has 2 position rows; syncing a state with one unseen substitute
grows positions to 3 rows and keeps the ball (31, 21) in the last
row. -/
theorem mirror_shape_invariant_witness :
    (testMirrorFromGS.positions.length
      = testMirrorFromGS.player_id_to_idx.length + 1) ∧
    ((testMirrorFromGS.sync_from_game_state testGameState2).positions.length
      = testMirrorFromGS.positions.length + 1) ∧
    ((testMirrorFromGS.sync_from_game_state testGameState2).positions.getD
        ((testMirrorFromGS.sync_from_game_state testGameState2).positions.length - 1)
        (0, 0) = (31, 21)) := by
  have hreach : MirrorReachable testMirrorFromGS :=
    MirrorReachable.init testGameState "H" "A" [("p1", "H")]
  have hshape := mirror_shape_invariant.1 testMirrorFromGS hreach
  refine ⟨hshape.1, ?_, ?_⟩
  · exact (mirror_shape_invariant.2.1 testMirrorFromGS testGameState2
      hshape.1 hshape.2 (by decide)
      (by decide)).1
  · have := mirror_shape_invariant.2.2 testMirrorFromGS testGameState2
      hshape.1 hshape.2
    simpa [testGameState2, testGameState] using this

/-
Aliasing model for MatchState.copy() (src/match_state.py).  The pure
MState model above has value semantics and cannot distinguish a deep
copy from an aliased reference, so the six mutable containers of a
MatchState (positions, velocities, stamina, team_ids and the two
id-index dicts) are placed in an explicit store of numbered cells; a
MatchStateRef holds the scalar fields by value (Python numbers and
tuples are immutable) and refers to each container by cell index.
copy() mirrors the source constructor call: every container argument is
self.<array>.copy() / self.<dict>.copy(), i.e. a fresh cell carrying
the same contents; scalars and ball_owner_idx/possession_team are
passed through. -/

/-- Claim C9: for a MatchState with allocated containers, copy()
produces a state whose scalar fields and container contents equal the
original's at copy time, and which shares no container cell with the
original: overwriting any of the original's six containers afterwards
leaves every container of the copy holding its copy-time contents. -/
theorem copy_isolation (h : ArrayStore) (s : MatchStateRef)
    (hval : ValidRef s h) :
    ((MatchStateRef.copy h s).2.time = s.time ∧
     (MatchStateRef.copy h s).2.score = s.score ∧
     (MatchStateRef.copy h s).2.ball_owner_idx = s.ball_owner_idx ∧
     (MatchStateRef.copy h s).1.pos (MatchStateRef.copy h s).2.posRef
       = h.pos s.posRef ∧
     (MatchStateRef.copy h s).1.vel (MatchStateRef.copy h s).2.velRef
       = h.vel s.velRef ∧
     (MatchStateRef.copy h s).1.stam (MatchStateRef.copy h s).2.stamRef
       = h.stam s.stamRef ∧
     (MatchStateRef.copy h s).1.team (MatchStateRef.copy h s).2.teamRef
       = h.team s.teamRef ∧
     (MatchStateRef.copy h s).1.pmap (MatchStateRef.copy h s).2.pmapRef
       = h.pmap s.pmapRef ∧
     (MatchStateRef.copy h s).1.imap (MatchStateRef.copy h s).2.imapRef
       = h.imap s.imapRef) ∧
    ((MatchStateRef.copy h s).2.posRef ≠ s.posRef ∧
     (MatchStateRef.copy h s).2.velRef ≠ s.velRef ∧
     (MatchStateRef.copy h s).2.stamRef ≠ s.stamRef ∧
     (MatchStateRef.copy h s).2.teamRef ≠ s.teamRef ∧
     (MatchStateRef.copy h s).2.pmapRef ≠ s.pmapRef ∧
     (MatchStateRef.copy h s).2.imapRef ≠ s.imapRef) ∧
    (∀ v, (writePos (MatchStateRef.copy h s).1 s.posRef v).pos
        (MatchStateRef.copy h s).2.posRef = h.pos s.posRef) ∧
    (∀ v, (writeVel (MatchStateRef.copy h s).1 s.velRef v).vel
        (MatchStateRef.copy h s).2.velRef = h.vel s.velRef) ∧
    (∀ v, (writeStam (MatchStateRef.copy h s).1 s.stamRef v).stam
        (MatchStateRef.copy h s).2.stamRef = h.stam s.stamRef) ∧
    (∀ v, (writeTeam (MatchStateRef.copy h s).1 s.teamRef v).team
        (MatchStateRef.copy h s).2.teamRef = h.team s.teamRef) ∧
    (∀ v, (writePmap (MatchStateRef.copy h s).1 s.pmapRef v).pmap
        (MatchStateRef.copy h s).2.pmapRef = h.pmap s.pmapRef) ∧
    (∀ v, (writeImap (MatchStateRef.copy h s).1 s.imapRef v).imap
        (MatchStateRef.copy h s).2.imapRef = h.imap s.imapRef) := by
  obtain ⟨hv1, hv2, hv3, hv4, hv5, hv6⟩ := hval
  refine ⟨⟨rfl, rfl, rfl, ?_, ?_, ?_, ?_, ?_, ?_⟩,
    ⟨Nat.ne_of_gt hv1, Nat.ne_of_gt hv2, Nat.ne_of_gt hv3,
     Nat.ne_of_gt hv4, Nat.ne_of_gt hv5, Nat.ne_of_gt hv6⟩,
    ?_, ?_, ?_, ?_, ?_, ?_⟩
  · dsimp [MatchStateRef.copy]
    rw [if_pos rfl]
  · dsimp [MatchStateRef.copy]
    rw [if_pos rfl]
  · dsimp [MatchStateRef.copy]
    rw [if_pos rfl]
  · dsimp [MatchStateRef.copy]
    rw [if_pos rfl]
  · dsimp [MatchStateRef.copy]
    rw [if_pos rfl]
  · dsimp [MatchStateRef.copy]
    rw [if_pos rfl]
  · intro v
    dsimp [MatchStateRef.copy, writePos]
    rw [if_neg (Nat.ne_of_gt hv1), if_pos rfl]
  · intro v
    dsimp [MatchStateRef.copy, writeVel]
    rw [if_neg (Nat.ne_of_gt hv2), if_pos rfl]
  · intro v
    dsimp [MatchStateRef.copy, writeStam]
    rw [if_neg (Nat.ne_of_gt hv3), if_pos rfl]
  · intro v
    dsimp [MatchStateRef.copy, writeTeam]
    rw [if_neg (Nat.ne_of_gt hv4), if_pos rfl]
  · intro v
    dsimp [MatchStateRef.copy, writePmap]
    rw [if_neg (Nat.ne_of_gt hv5), if_pos rfl]
  · intro v
    dsimp [MatchStateRef.copy, writeImap]
    rw [if_neg (Nat.ne_of_gt hv6), if_pos rfl]

/-- Witness for C9 at a concrete input: after copying a one-cell store,
overwriting the original's positions cell leaves the copy's positions
at the copy-time contents. -/
theorem copy_isolation_witness :
    (writePos (MatchStateRef.copy testStore testStateRef).1
        testStateRef.posRef [(9, 9)]).pos
      (MatchStateRef.copy testStore testStateRef).2.posRef
      = testStore.pos testStateRef.posRef ∧
    (MatchStateRef.copy testStore testStateRef).2.posRef ≠ testStateRef.posRef := by
  have h := copy_isolation testStore testStateRef
    (by refine ⟨?_, ?_, ?_, ?_, ?_, ?_⟩ <;> decide)
  exact ⟨h.2.2.1 [(9, 9)], h.2.1.1⟩

end Offside
